import Mathlib

/-!
Verification of the flashcard quiz application (`flashcard_quiz.py`).

The development shallowly embeds the quiz core: the Python string
normalisation used by the answer evaluator, the option generator, the
quiz-state dictionary and its event handlers, the render-driven step
relation of `main`, and the results-ledger recording logic.
-/

set_option linter.unusedVariables false

/-! ## Python string primitives

`str.strip` / `str.lower` as used throughout the source, modelled as
plain list operations on the string's characters. -/

/-- Characters removed by Python's `str.strip()` with no argument
(ASCII whitespace). -/
def pyIsSpace (c : Char) : Bool :=
  c == ' ' || c == '\t' || c == '\n' || c == '\r' || c == '\x0b' || c == '\x0c'

/-- Python `s.strip()`: remove leading and trailing whitespace. -/
def pyStrip (s : String) : String :=
  ⟨((s.data.dropWhile pyIsSpace).reverse.dropWhile pyIsSpace).reverse⟩

/-- Python `str.lower` on a single ASCII character. -/
def pyLowerChar (c : Char) : Char :=
  if 'A' ≤ c ∧ c ≤ 'Z' then Char.ofNat (c.toNat + 32) else c

/-- Python `s.lower()`: lower-case every character. -/
def pyLower (s : String) : String :=
  ⟨s.data.map pyLowerChar⟩

/-! ## Answer evaluator (`check_answer`, flashcard_quiz.py lines 165-169) -/

/-- Embeds `check_answer(user_answer, correct_answer)`: `None` is
incorrect, otherwise compare after `strip().lower()` on both sides. -/
def check_answer (user_answer : Option String) (correct_answer : String) : Bool :=
  match user_answer with
  | none => false
  | some u => pyLower (pyStrip u) == pyLower (pyStrip correct_answer)

/-! ## Option generator (`generate_options`, flashcard_quiz.py lines 107-141)

The function uses `random.sample` and `random.shuffle`, so it is embedded
as a relation between its inputs and the possible output lists. -/

/-- The variable `correct_lower = correct_answer.strip().lower()`. -/
def correct_lower (correct_answer : String) : String :=
  pyLower (pyStrip correct_answer)

/-- The list `other_answers`: all answers whose stripped lower-cased form
differs from that of the correct answer. -/
def other_answers (correct_answer : String) (all_answers : List String) : List String :=
  all_answers.filter (fun ans => pyLower (pyStrip ans) != correct_lower correct_answer)

/-- The set `set(ans.strip() for ans in other_answers)` of distinct stripped
incorrect answers, the sampling pool of `generate_options`. -/
def strippedOthers (correct_answer : String) (all_answers : List String) : Finset String :=
  ((other_answers correct_answer all_answers).map pyStrip).toFinset

/-- Embeds `generate_options(correct_answer, all_answers, num_options)` as a
relation: `out` is a possible return value.  The set `options` starts as the
singleton of the stripped correct answer; if at least `num_options - 1`
distinct stripped incorrect answers exist, `random.sample` adds some
`num_options - 1` of them, otherwise all of them are added; the final list
holds the set's elements in the arbitrary order produced by `list(...)`
followed by `random.shuffle`. -/
def generate_options (correct_answer : String) (all_answers : List String)
    (num_options : Nat) (out : List String) : Prop :=
  ∃ sampled : Finset String,
    (if num_options - 1 ≤ (strippedOthers correct_answer all_answers).card then
       sampled ⊆ strippedOthers correct_answer all_answers ∧
         sampled.card = num_options - 1
     else sampled = strippedOthers correct_answer all_answers) ∧
    out.Nodup ∧ out.toFinset = insert (pyStrip correct_answer) sampled

/-! ## Data model -/

/-- A flashcard record with columns `questions` and `answer`. -/
structure Card where
  questions : String
  answer : String
deriving DecidableEq, Repr

/-- An entry of `quiz_data['correct_questions']`: keys `questions`, `answer`. -/
structure CorrectEntry where
  questions : String
  answer : String
deriving DecidableEq, Repr

/-- An entry of `quiz_data['incorrect_questions']`: keys `Question`,
`Correct Answer`, `Your Answer`. -/
structure IncorrectEntry where
  question : String
  correctAnswer : String
  yourAnswer : String
deriving DecidableEq, Repr

/-- The `quiz_data` dictionary stored at `st.session_state['quiz_data']`.
The `user_answers` dict maps card indices to the (possibly `None`) radio
selection; `results_recorded` models the presence of the dynamically added
`'results_recorded'` key (absent = `false`). -/
structure QuizData where
  quiz_started : Bool
  correct_count : Nat
  incorrect_count : Nat
  correct_questions : List CorrectEntry
  incorrect_questions : List IncorrectEntry
  show_answer : Bool
  user_answers : List (Nat × Option String)
  submitted : Bool
  show_answer_clicked : Bool
  used_questions : Finset Nat
  current_options : Option (List String)
  results_recorded : Bool
deriving DecidableEq

/-- Python `d.get(k)` on the `user_answers` dict: `None` both when the key
is absent and when the stored value is `None`. -/
def dictGet (d : List (Nat × Option String)) (k : Nat) : Option String :=
  match d.find? (fun p => p.1 == k) with
  | some p => p.2
  | none => none

/-- Python `d[k] = v` on the `user_answers` dict. -/
def dictSet (d : List (Nat × Option String)) (k : Nat) (v : Option String) :
    List (Nat × Option String) :=
  (k, v) :: d.eraseP (fun p => p.1 == k)

/-- Embeds `_get_default_quiz_state(num_questions)` (lines 35-49): the fresh
quiz state (the argument is unused in the source as well). -/
def get_default_quiz_state (_num_questions : Nat) : QuizData :=
  { quiz_started := true
    correct_count := 0
    incorrect_count := 0
    correct_questions := []
    incorrect_questions := []
    show_answer := false
    user_answers := []
    submitted := false
    show_answer_clicked := false
    used_questions := ∅
    current_options := none
    results_recorded := false }

/-! ## Event handlers (flashcard_quiz.py lines 171-238) -/

/-- Embeds `handle_incorrect_answer(current_card, user_answer)` (lines
171-179): increment the incorrect count and append a review-log entry whose
user-answer field falls back to `"No answer"`. -/
def handle_incorrect_answer (current_card : Card) (user_answer : Option String)
    (q : QuizData) : QuizData :=
  { q with
    incorrect_count := q.incorrect_count + 1
    incorrect_questions := q.incorrect_questions ++
      [⟨current_card.questions, current_card.answer, user_answer.getD "No answer"⟩] }

/-- Embeds `handle_submit(current_card_index)` (lines 181-207).  An
out-of-range index would raise `IndexError` in Python; the embedding then
returns the state unchanged, a branch never taken by the program. -/
def handle_submit (flashcards : List Card) (q : QuizData) (current_card_index : Nat) :
    QuizData :=
  match flashcards[current_card_index]? with
  | none => q
  | some current_card =>
    let user_answer := dictGet q.user_answers current_card_index
    let q1 :=
      if check_answer user_answer current_card.answer then
        if current_card_index ∉ q.used_questions then
          { q with
            correct_count := q.correct_count + 1
            correct_questions := q.correct_questions ++
              [⟨current_card.questions, current_card.answer⟩] }
        else q
      else
        if current_card_index ∉ q.used_questions then
          handle_incorrect_answer current_card user_answer q
        else q
    { q1 with
      submitted := true
      show_answer := true
      used_questions := insert current_card_index q1.used_questions }

/-- Embeds `handle_show_answer(current_card_index)` (lines 209-226): reveal
the answer; when the index is still unused, record an incorrect attempt and
mark the index used; always end with `submitted = true`. -/
def handle_show_answer (flashcards : List Card) (q : QuizData)
    (current_card_index : Nat) : QuizData :=
  match flashcards[current_card_index]? with
  | none => q
  | some current_card =>
    let q1 := { q with show_answer := true, show_answer_clicked := true }
    let q2 :=
      if current_card_index ∉ q1.used_questions then
        { handle_incorrect_answer current_card
            (dictGet q1.user_answers current_card_index) q1 with
          used_questions := insert current_card_index q1.used_questions }
      else q1
    { q2 with submitted := true }

/-- Embeds the `quiz_data` part of `handle_next_question()` (lines 228-238):
clear the per-question flags and the cached options. -/
def handle_next_question (q : QuizData) : QuizData :=
  { q with
    show_answer := false
    submitted := false
    show_answer_clicked := false
    current_options := none }

/-! ## Session-level state and the render-driven step relation (`main`) -/

/-- The session state visible to `main`: the loaded flashcards, the
`quiz_data` dictionary, and `st.session_state['current_card_index']`
(`none` between questions). -/
structure SessionState where
  flashcards : List Card
  quizData : QuizData
  currentIndex : Option Nat
deriving DecidableEq

/-- Embeds `start_quiz(flashcards)` (lines 98-105): fresh default quiz
state, current index cleared. -/
def start_quiz (flashcards : List Card) : SessionState :=
  ⟨flashcards, get_default_quiz_state flashcards.length, none⟩

/-- The `available_indices` of `main` (line 467): all card positions minus
the used ones. -/
def availableIndices (s : SessionState) : Finset Nat :=
  Finset.range s.flashcards.length \ s.quizData.used_questions

/-- The deck's answer universe `list(set(card['answer'] for card in
flashcards))` built in `main` (line 434), up to the arbitrary order of a
Python set. -/
def allAnswersList (flashcards : List Card) : List String :=
  (flashcards.map Card.answer).dedup

/-- One user-visible transition of `main`'s render loop as the control flow
intends it: the lazy random draw of a question (lines 477-479), caching of
generated options (lines 485-488), the radio selection write-back (line
497), the Submit, Show Answer and Next buttons with their enabling
conditions (lines 502-520), and the sidebar/results Restart (lines 450-453,
267-269).  Line 503 of the source reads the undefined name
`QK_SHOW_ANSWER_clicked` (lower-case `clicked`), so the deployed script
raises `NameError` on every question render before the three buttons are
created; this relation reads it as the evidently intended constant
`QK_SHOW_ANSWER_CLICKED` and therefore over-approximates the transitions
the deployed script can take (conservative for invariant proofs; see
`QuizStepActual` for the deployed behaviour). -/
inductive QuizStep : SessionState → SessionState → Prop where
  | restart (s : SessionState) :
      QuizStep s (start_quiz s.flashcards)
  | draw (s : SessionState) (i : Nat) :
      s.currentIndex = none →
      i ∈ availableIndices s →
      QuizStep s { s with
        currentIndex := some i
        quizData := { s.quizData with current_options := none } }
  | setOptions (s : SessionState) (i : Nat) (card : Card) (opts : List String) :
      s.currentIndex = some i →
      s.flashcards[i]? = some card →
      (s.quizData.current_options = none ∨ s.quizData.current_options = some []) →
      generate_options card.answer (allAnswersList s.flashcards) 5 opts →
      QuizStep s { s with
        quizData := { s.quizData with current_options := some opts } }
  | select (s : SessionState) (i : Nat) (ans : Option String) :
      s.currentIndex = some i →
      QuizStep s { s with
        quizData := { s.quizData with
          user_answers := dictSet s.quizData.user_answers i ans } }
  | submit (s : SessionState) (i : Nat) :
      s.currentIndex = some i →
      s.quizData.submitted = false →
      s.quizData.show_answer_clicked = false →
      dictGet s.quizData.user_answers i ≠ none →
      QuizStep s { s with quizData := handle_submit s.flashcards s.quizData i }
  | reveal (s : SessionState) (i : Nat) :
      s.currentIndex = some i →
      s.quizData.submitted = false →
      s.quizData.show_answer_clicked = false →
      QuizStep s { s with quizData := handle_show_answer s.flashcards s.quizData i }
  | next (s : SessionState) (i : Nat) :
      s.currentIndex = some i →
      (s.quizData.submitted = true ∨ s.quizData.show_answer_clicked = true) →
      QuizStep s { s with
        currentIndex := none
        quizData := handle_next_question s.quizData }

/-- Session states reachable from Start on a given deck under the intended
control flow. -/
def Reachable (flashcards : List Card) (s : SessionState) : Prop :=
  Relation.ReflTransGen QuizStep (start_quiz flashcards) s

/-- One transition of `main`'s render loop as the deployed script actually
executes it.  Line 503 reads `quiz_data[QK_SHOW_ANSWER_clicked]`, an
undefined Python name (the constant at line 29 is `QK_SHOW_ANSWER_CLICKED`),
so every question render raises `NameError` after the draw (lines 477-479),
the option caching (lines 485-488) and the radio write-back (line 497) have
mutated the session state, but before the Submit, Show Answer and Next
buttons (lines 506-520) are created.  The sidebar Restart (lines 450-453)
is rendered before the crash.  Hence the only transitions are restart,
draw, option caching and radio selection; `handle_submit`,
`handle_show_answer` and `handle_next_question` are dead code. -/
inductive QuizStepActual : SessionState → SessionState → Prop where
  | restart (s : SessionState) :
      QuizStepActual s (start_quiz s.flashcards)
  | draw (s : SessionState) (i : Nat) :
      s.currentIndex = none →
      i ∈ availableIndices s →
      QuizStepActual s { s with
        currentIndex := some i
        quizData := { s.quizData with current_options := none } }
  | setOptions (s : SessionState) (i : Nat) (card : Card) (opts : List String) :
      s.currentIndex = some i →
      s.flashcards[i]? = some card →
      (s.quizData.current_options = none ∨ s.quizData.current_options = some []) →
      generate_options card.answer (allAnswersList s.flashcards) 5 opts →
      QuizStepActual s { s with
        quizData := { s.quizData with current_options := some opts } }
  | select (s : SessionState) (i : Nat) (ans : Option String) :
      s.currentIndex = some i →
      QuizStepActual s { s with
        quizData := { s.quizData with
          user_answers := dictSet s.quizData.user_answers i ans } }

/-- Session states the deployed script can actually reach from Start. -/
def ReachableActual (flashcards : List Card) (s : SessionState) : Prop :=
  Relation.ReflTransGen QuizStepActual (start_quiz flashcards) s

/-- The inductive invariant of the session state machine. -/
def SessionInv (s : SessionState) : Prop :=
  s.quizData.correct_count + s.quizData.incorrect_count = s.quizData.used_questions.card ∧
  s.quizData.used_questions ⊆ Finset.range s.flashcards.length ∧
  (∀ i, s.currentIndex = some i → i < s.flashcards.length) ∧
  (∀ i, s.currentIndex = some i → s.quizData.submitted = false →
    s.quizData.show_answer_clicked = false → i ∉ s.quizData.used_questions)

/-! ## Results ledger (flashcard_quiz.py lines 272-324, 469-474) -/

/-- A row of the results file `quiz_results.csv`. -/
structure HistoryEntry where
  timestamp : String
  user : String
  correctCount : Nat
  incorrectCount : Nat
  totalQuestions : Nat
  incorrectDetails : String
deriving DecidableEq

/-- The `"; ".join(...)` summary of the incorrect-question log built by
`record_quiz_attempt` (lines 307-313). -/
def incorrectDetailsStr (entries : List IncorrectEntry) : String :=
  String.intercalate "; " (entries.map fun item =>
    "Q: " ++ item.question ++ " | A: " ++ item.correctAnswer ++
      " | Your: " ++ item.yourAnswer)

/-- Embeds `record_quiz_attempt()` (lines 294-324) acting on the loaded
results list: return early without appending when the user name is empty or
the `'user'` key was absent (Python default `"Unknown"`); otherwise append
exactly one row. -/
def record_quiz_attempt (timestamp user : String) (flashcards : List Card)
    (q : QuizData) (results : List HistoryEntry) : List HistoryEntry :=
  if user = "" ∨ user = "Unknown" then results
  else
    results ++ [⟨timestamp, user, q.correct_count, q.incorrect_count,
      flashcards.length, incorrectDetailsStr q.incorrect_questions⟩]

/-- Embeds one pass of `main`'s quiz-completion branch (lines 469-474): when
`'results_recorded'` is not yet in `quiz_data`, call `record_quiz_attempt`
and set the guard; otherwise change nothing. -/
def renderFinished (timestamp user : String) (s : SessionState)
    (ledger : List HistoryEntry) : SessionState × List HistoryEntry :=
  if s.quizData.results_recorded then (s, ledger)
  else
    ({ s with quizData := { s.quizData with results_recorded := true } },
      record_quiz_attempt timestamp user s.flashcards s.quizData ledger)

/-! ## Concrete data used by witnesses and counterexamples -/

/-- A one-card deck. -/
def deck1 : List Card := [⟨"2+2", "4"⟩]

/-- `deck1` session after the lazy draw of question 0. -/
def c3StateA : SessionState :=
  { start_quiz deck1 with
    currentIndex := some 0
    quizData := { (start_quiz deck1).quizData with current_options := none } }

/-- A completed one-card session whose single question was answered
correctly and whose result is not yet recorded. -/
def finishedState : SessionState :=
  { flashcards := deck1
    quizData := { get_default_quiz_state 1 with
      correct_count := 1
      used_questions := {0}
      submitted := true
      show_answer := true }
    currentIndex := some 0 }

/-! # Theorems -/

/-! ## Auxiliary lemmas about the option generator -/

/-- The stripped correct answer is never in the sampling pool: every pool
element disagrees with it after `strip().lower()`. -/
lemma pyStrip_correct_not_mem_strippedOthers (correct_answer : String)
    (all_answers : List String) :
    pyStrip correct_answer ∉ strippedOthers correct_answer all_answers := by
  intro hmem
  rw [strippedOthers, List.mem_toFinset, List.mem_map] at hmem
  obtain ⟨ans, hans, hstrip⟩ := hmem
  rw [other_answers, List.mem_filter] at hans
  have hne : pyLower (pyStrip ans) ≠ correct_lower correct_answer := by
    simpa [bne_iff_ne] using hans.2
  exact hne (by rw [hstrip]; rfl)

/-- Every element of an output of `generate_options` is the `pyStrip` of
some string. -/
lemma generate_options_mem_strip {correct_answer : String} {all_answers : List String}
    {num_options : Nat} {out : List String}
    (h : generate_options correct_answer all_answers num_options out) :
    ∀ x ∈ out, ∃ y : String, x = pyStrip y := by
  obtain ⟨sampled, hsampled, hnd, hfin⟩ := h
  intro x hx
  have hx' : x ∈ insert (pyStrip correct_answer) sampled := by
    rw [← hfin]; exact List.mem_toFinset.2 hx
  rcases Finset.mem_insert.1 hx' with hc | hs
  · exact ⟨correct_answer, hc⟩
  · have hpool : x ∈ strippedOthers correct_answer all_answers := by
      by_cases hcond : num_options - 1 ≤ (strippedOthers correct_answer all_answers).card
      · rw [if_pos hcond] at hsampled; exact hsampled.1 hs
      · rw [if_neg hcond] at hsampled; exact hsampled ▸ hs
    rw [strippedOthers, List.mem_toFinset, List.mem_map] at hpool
    obtain ⟨y, _, hy⟩ := hpool
    exact ⟨y, hy.symm⟩

/-! Idempotence of `pyStrip`, needed to show the generator's outputs are
already stripped. -/

lemma head?_dropWhile_not {α : Type} (p : α → Bool) (l : List α) :
    ∀ c, (l.dropWhile p).head? = some c → p c = false := by
  induction l with
  | nil => intro c hc; simp [List.dropWhile] at hc
  | cons a t ih =>
    intro c hc
    by_cases ha : p a
    · rw [List.dropWhile_cons_of_pos ha] at hc; exact ih c hc
    · rw [List.dropWhile_cons_of_neg ha] at hc
      simp at hc
      subst hc
      simpa using ha

lemma dropWhile_eq_self_of_head? {α : Type} (p : α → Bool) (l : List α)
    (h : ∀ c, l.head? = some c → p c = false) : l.dropWhile p = l := by
  cases l with
  | nil => rfl
  | cons a t => exact List.dropWhile_cons_of_neg (by simp [h a rfl])

lemma head?_eq_of_front {α : Type} {l₁ l₂ : List α} (h : l₁ <+: l₂)
    (hne : l₁ ≠ []) : l₂.head? = l₁.head? := by
  obtain ⟨t, ht⟩ := h
  cases l₁ with
  | nil => exact absurd rfl hne
  | cons a s => rw [← ht]; rfl

/-- The left-stripped-ness of a list survives removing a suffix. -/
lemma dropWhile_head?_of_front {α : Type} (p : α → Bool) {l₁ l₂ : List α}
    (h : l₁ <+: l₂) (h₂ : ∀ c, l₂.head? = some c → p c = false) :
    ∀ c, l₁.head? = some c → p c = false := by
  intro c hc
  have hne : l₁ ≠ [] := by intro h0; rw [h0] at hc; simp at hc
  exact h₂ c ((head?_eq_of_front h hne).trans hc)

/-- Python's `strip` is idempotent. -/
lemma pyStrip_idem (s : String) : pyStrip (pyStrip s) = pyStrip s := by
  rcases s with ⟨l⟩
  show pyStrip ⟨((l.dropWhile pyIsSpace).reverse.dropWhile pyIsSpace).reverse⟩ = _
  rw [pyStrip]
  set d := l.dropWhile pyIsSpace with hd
  set m := d.reverse.dropWhile pyIsSpace with hm
  have hdclean : ∀ c, d.head? = some c → pyIsSpace c = false :=
    head?_dropWhile_not pyIsSpace l
  have hmclean : ∀ c, m.head? = some c → pyIsSpace c = false :=
    head?_dropWhile_not pyIsSpace d.reverse
  have hpre : m.reverse <+: d := by
    have hsuf : m <:+ d.reverse := List.dropWhile_suffix pyIsSpace
    have := List.reverse_prefix.2 (by simpa using hsuf)
    simpa using this
  have hrev : (m.reverse).dropWhile pyIsSpace = m.reverse :=
    dropWhile_eq_self_of_head? _ _ (dropWhile_head?_of_front pyIsSpace hpre hdclean)
  have hm2 : m.dropWhile pyIsSpace = m := dropWhile_eq_self_of_head? _ _ hmclean
  show String.mk (((m.reverse.dropWhile pyIsSpace).reverse.dropWhile pyIsSpace).reverse)
      = String.mk m.reverse
  rw [hrev, List.reverse_reverse, hm2]

/-- Every element of an output of `generate_options` is fixed by `pyStrip`. -/
lemma generate_options_strip_fixed {correct_answer : String} {all_answers : List String}
    {num_options : Nat} {out : List String}
    (h : generate_options correct_answer all_answers num_options out) :
    ∀ x ∈ out, pyStrip x = x := by
  intro x hx
  obtain ⟨y, hy⟩ := generate_options_mem_strip h x hx
  rw [hy, pyStrip_idem]

/-! ## C4: the correct answer in the generated options -/

/-- C4 (counterexample): the option generator does not always return the
exact untrimmed correct-answer string.  For the correct answer `" Paris"`
and the empty universe, `["Paris"]` is a possible output, and it does not
contain `" Paris"`. -/
theorem c4_counterexample :
    generate_options " Paris" [] 5 ["Paris"] ∧
      (" Paris" : String) ∉ (["Paris"] : List String) := by
  refine ⟨⟨strippedOthers " Paris" [], ?_, ?_, ?_⟩, by decide⟩
  · rw [if_neg (by decide)]
  · decide
  · decide

/-- C4 (amended): every possible output of the option generator contains
the trimmed correct-answer string `pyStrip correct_answer` exactly once
(when the correct answer carries no surrounding whitespace this is the
exact original string). -/
theorem c4_amended_stripped_correct_exactly_once
    (correct_answer : String) (all_answers : List String) (num_options : Nat)
    (out : List String)
    (h : generate_options correct_answer all_answers num_options out) :
    out.count (pyStrip correct_answer) = 1 := by
  obtain ⟨sampled, hsampled, hnd, hfin⟩ := h
  have hmem : pyStrip correct_answer ∈ out := by
    rw [← List.mem_toFinset, hfin]
    exact Finset.mem_insert_self _ _
  exact List.count_eq_one_of_mem hnd hmem

/-- C4 witness: instantiation of the amended theorem on a concrete run. -/
theorem c4_amended_witness :
    generate_options "a" [] 5 ["a"] ∧ (["a"] : List String).count (pyStrip "a") = 1 := by
  have hgen : generate_options "a" [] 5 ["a"] := by
    refine ⟨strippedOthers "a" [], ?_, ?_, ?_⟩
    · rw [if_neg (by decide)]
    · decide
    · decide
  exact ⟨hgen, c4_amended_stripped_correct_exactly_once "a" [] 5 ["a"] hgen⟩

/-! ## C7: duplicate detection among generated options -/

/-- C7 (counterexample): two possible output entries can be equal after
trimming and case-folding.  With correct answer `"bar"` and universe
`["Foo", "foo"]`, the list `["bar", "Foo", "foo"]` is a possible output,
and its distinct entries `"Foo"` and `"foo"` case-fold to the same string:
deduplication in the source is by exact stripped string, not case-folded. -/
theorem c7_counterexample :
    generate_options "bar" ["Foo", "foo"] 5 ["bar", "Foo", "foo"] ∧
      ("Foo" : String) ∈ (["bar", "Foo", "foo"] : List String) ∧
      ("foo" : String) ∈ (["bar", "Foo", "foo"] : List String) ∧
      ("Foo" : String) ≠ "foo" ∧
      pyLower (pyStrip "Foo") = pyLower (pyStrip "foo") := by
  refine ⟨⟨strippedOthers "bar" ["Foo", "foo"], ?_, ?_, ?_⟩, by decide, by decide,
    by decide, by decide⟩
  · rw [if_neg (by decide)]
  · decide
  · decide

/-- C7 (amended): every possible output of the option generator is
duplicate-free under trimmed comparison — its entries are pairwise distinct
exact strings, each already fixed by `pyStrip` — but entries may coincide
after additional case-folding. -/
theorem c7_amended_nodup_trimmed
    (correct_answer : String) (all_answers : List String) (num_options : Nat)
    (out : List String)
    (h : generate_options correct_answer all_answers num_options out) :
    out.Pairwise (fun a b => pyStrip a ≠ pyStrip b) := by
  have hnd : out.Nodup := h.choose_spec.2.1
  have hfix := generate_options_strip_fixed h
  exact hnd.imp_of_mem (fun ha hb hne => by
    rw [hfix _ ha, hfix _ hb]; exact hne)

/-- C7 witness: instantiation of the amended theorem on a concrete run. -/
theorem c7_amended_witness :
    generate_options "b" ["c"] 5 ["b", "c"] ∧
      (["b", "c"] : List String).Pairwise (fun a b => pyStrip a ≠ pyStrip b) := by
  have hgen : generate_options "b" ["c"] 5 ["b", "c"] := by
    refine ⟨strippedOthers "b" ["c"], ?_, ?_, ?_⟩
    · rw [if_neg (by decide)]
    · decide
    · decide
  exact ⟨hgen, c7_amended_nodup_trimmed "b" ["c"] 5 ["b", "c"] hgen⟩

/-! ## C8: number of generated options -/

/-- C8 (counterexample): the output size is not `min(width, 1 + |pool|)`
when the pool is counted as the universe entries surviving the filter.
With correct answer `"y"`, universe `["x ", "x"]` and width 5, the filter
keeps both entries (pool size 2, so the claim predicts `min 5 3 = 3`
options), but `["y", "x"]` with only 2 entries is a possible output: the
source counts distinct stripped values, and `"x "` and `"x"` collapse. -/
theorem c8_counterexample :
    generate_options "y" ["x ", "x"] 5 ["y", "x"] ∧
      (["y", "x"] : List String).length ≠
        min 5 (1 + (other_answers "y" ["x ", "x"]).length) := by
  refine ⟨⟨strippedOthers "y" ["x ", "x"], ?_, ?_, ?_⟩, by decide⟩
  · rw [if_neg (by decide)]
  · decide
  · decide

/-- C8 (amended): for any width of at least one, every possible output of
the option generator has exactly `min num_options (1 + D)` entries, where
`D` is the number of distinct trimmed values in the filtered pool; when the
pool is smaller than `num_options - 1` the entire pool is included with no
placeholder padding. -/
theorem c8_amended_length
    (correct_answer : String) (all_answers : List String) (num_options : Nat)
    (out : List String) (hn : 1 ≤ num_options)
    (h : generate_options correct_answer all_answers num_options out) :
    out.length = min num_options (1 + (strippedOthers correct_answer all_answers).card) := by
  obtain ⟨sampled, hsampled, hnd, hfin⟩ := h
  have hlen : out.length = (insert (pyStrip correct_answer) sampled).card := by
    rw [← hfin]; exact (List.toFinset_card_of_nodup hnd).symm
  by_cases hcond : num_options - 1 ≤ (strippedOthers correct_answer all_answers).card
  · rw [if_pos hcond] at hsampled
    obtain ⟨hsub, hcard⟩ := hsampled
    have hnotmem : pyStrip correct_answer ∉ sampled := fun hmem =>
      pyStrip_correct_not_mem_strippedOthers correct_answer all_answers (hsub hmem)
    rw [hlen, Finset.card_insert_of_not_mem hnotmem, hcard]
    omega
  · rw [if_neg hcond] at hsampled
    subst hsampled
    have hnotmem := pyStrip_correct_not_mem_strippedOthers correct_answer all_answers
    rw [hlen, Finset.card_insert_of_not_mem hnotmem]
    omega

/-- C8 witness: instantiation of the amended theorem on a concrete run. -/
theorem c8_amended_witness :
    1 ≤ 5 ∧ generate_options "a" [] 5 ["a"] ∧
      (["a"] : List String).length = min 5 (1 + (strippedOthers "a" []).card) := by
  have hgen : generate_options "a" [] 5 ["a"] := by
    refine ⟨strippedOthers "a" [], ?_, ?_, ?_⟩
    · rw [if_neg (by decide)]
    · decide
    · decide
  exact ⟨by decide, hgen, c8_amended_length "a" [] 5 ["a"] (by decide) hgen⟩

/-! ## C9: the answer evaluator -/

/-- C9: `check_answer` returns `false` for an absent candidate, otherwise
it returns `true` exactly when the trimmed lower-cased candidate equals the
trimmed lower-cased correct answer; in particular the four example
evaluations of the specification hold. -/
theorem c9_check_answer_spec :
    (∀ correct_answer : String, check_answer none correct_answer = false) ∧
    (∀ u correct_answer : String,
      check_answer (some u) correct_answer = true ↔
        pyLower (pyStrip u) = pyLower (pyStrip correct_answer)) ∧
    check_answer (some "Paris") "paris " = true ∧
    check_answer (some " PARIS") "Paris" = true ∧
    check_answer (some "Pariss") "Paris" = false := by
  refine ⟨fun _ => rfl, fun u c => ?_, by decide, by decide, by decide⟩
  simp [check_answer, beq_iff_eq]

/-! ## C5: re-submitting an already-used index -/

/-- C5: submitting an index already contained in `used_questions` changes
neither counter and neither review log, whatever the stored selection:
both counting branches of `handle_submit` are guarded by membership. -/
theorem c5_resubmit_idempotent_counts
    (flashcards : List Card) (q : QuizData) (i : Nat)
    (h : i ∈ q.used_questions) :
    (handle_submit flashcards q i).correct_count = q.correct_count ∧
    (handle_submit flashcards q i).incorrect_count = q.incorrect_count ∧
    (handle_submit flashcards q i).correct_questions = q.correct_questions ∧
    (handle_submit flashcards q i).incorrect_questions = q.incorrect_questions := by
  cases hget : flashcards[i]? with
  | none => simp [handle_submit, hget]
  | some card =>
    by_cases hc : check_answer (dictGet q.user_answers i) card.answer
    · simp [handle_submit, hget, hc, h]
    · simp [handle_submit, hget, hc, h]

/-- C5 witness: instantiation on a one-card deck whose only index is
already used. -/
theorem c5_resubmit_witness :
    0 ∈ ({ get_default_quiz_state 1 with
            used_questions := {0} } : QuizData).used_questions ∧
    (handle_submit deck1 { get_default_quiz_state 1 with used_questions := {0} } 0).correct_count
      = ({ get_default_quiz_state 1 with used_questions := {0} } : QuizData).correct_count :=
  ⟨by decide,
    (c5_resubmit_idempotent_counts deck1
      { get_default_quiz_state 1 with used_questions := {0} } 0 (by decide)).1⟩

/-! ## C6: revealing an unresolved question -/

/-- C6: in `Answering` mode (neither submitted nor revealed) on an index
not yet used, Show Answer increments the incorrect count by exactly one,
appends one incorrect-log entry whose user-answer field is the current
selection or `"No answer"`, adds the index to `used_questions`, sets both
the `submitted` and `show_answer_clicked` flags, and leaves the correct
count and correct log unchanged — the bookkeeping of an incorrect submit. -/
theorem c6_reveal_is_incorrect_attempt
    (flashcards : List Card) (q : QuizData) (i : Nat) (card : Card)
    (hget : flashcards[i]? = some card)
    (hunused : i ∉ q.used_questions)
    (hsub : q.submitted = false)
    (hrev : q.show_answer_clicked = false) :
    (handle_show_answer flashcards q i).incorrect_count = q.incorrect_count + 1 ∧
    (handle_show_answer flashcards q i).incorrect_questions = q.incorrect_questions ++
      [⟨card.questions, card.answer, (dictGet q.user_answers i).getD "No answer"⟩] ∧
    (handle_show_answer flashcards q i).used_questions = insert i q.used_questions ∧
    (handle_show_answer flashcards q i).submitted = true ∧
    (handle_show_answer flashcards q i).show_answer_clicked = true ∧
    (handle_show_answer flashcards q i).correct_count = q.correct_count ∧
    (handle_show_answer flashcards q i).correct_questions = q.correct_questions := by
  simp [handle_show_answer, hget, hunused, handle_incorrect_answer]

/-- C6 witness: revealing the single unanswered question of a fresh
one-card session records one incorrect attempt. -/
theorem c6_reveal_witness :
    deck1[0]? = some ⟨"2+2", "4"⟩ ∧
    (0 ∉ (get_default_quiz_state 1).used_questions) ∧
    (handle_show_answer deck1 (get_default_quiz_state 1) 0).incorrect_count
      = (get_default_quiz_state 1).incorrect_count + 1 :=
  ⟨by decide, by decide,
    (c6_reveal_is_incorrect_attempt deck1 (get_default_quiz_state 1) 0
      ⟨"2+2", "4"⟩ (by decide) (by decide) rfl rfl).1⟩

/-! ## The session invariant (C1, C3) -/

lemma handle_submit_used_questions (flashcards : List Card) (q : QuizData) (i : Nat)
    (card : Card) (hget : flashcards[i]? = some card) :
    (handle_submit flashcards q i).used_questions = insert i q.used_questions := by
  by_cases hc : check_answer (dictGet q.user_answers i) card.answer <;>
    by_cases hm : i ∈ q.used_questions <;>
      simp [handle_submit, hget, hc, hm, handle_incorrect_answer]

lemma handle_submit_submitted (flashcards : List Card) (q : QuizData) (i : Nat)
    (card : Card) (hget : flashcards[i]? = some card) :
    (handle_submit flashcards q i).submitted = true := by
  by_cases hc : check_answer (dictGet q.user_answers i) card.answer <;>
    simp [handle_submit, hget, hc]

lemma handle_submit_counts_of_not_mem (flashcards : List Card) (q : QuizData) (i : Nat)
    (card : Card) (hget : flashcards[i]? = some card) (hm : i ∉ q.used_questions) :
    (handle_submit flashcards q i).correct_count +
        (handle_submit flashcards q i).incorrect_count
      = q.correct_count + q.incorrect_count + 1 := by
  by_cases hc : check_answer (dictGet q.user_answers i) card.answer <;>
    simp [handle_submit, hget, hc, hm, handle_incorrect_answer] <;> omega

lemma handle_show_answer_used_questions (flashcards : List Card) (q : QuizData) (i : Nat)
    (card : Card) (hget : flashcards[i]? = some card) (hm : i ∉ q.used_questions) :
    (handle_show_answer flashcards q i).used_questions = insert i q.used_questions := by
  simp [handle_show_answer, hget, hm, handle_incorrect_answer]

lemma handle_show_answer_submitted (flashcards : List Card) (q : QuizData) (i : Nat)
    (card : Card) (hget : flashcards[i]? = some card) :
    (handle_show_answer flashcards q i).submitted = true := by
  by_cases hm : i ∈ q.used_questions <;>
    simp [handle_show_answer, hget, hm, handle_incorrect_answer]

lemma handle_show_answer_counts_of_not_mem (flashcards : List Card) (q : QuizData)
    (i : Nat) (card : Card) (hget : flashcards[i]? = some card)
    (hm : i ∉ q.used_questions) :
    (handle_show_answer flashcards q i).correct_count +
        (handle_show_answer flashcards q i).incorrect_count
      = q.correct_count + q.incorrect_count + 1 := by
  simp [handle_show_answer, hget, hm, handle_incorrect_answer]
  omega

/-- The invariant holds in the freshly started session. -/
lemma sessionInv_start (flashcards : List Card) : SessionInv (start_quiz flashcards) := by
  refine ⟨rfl, Finset.empty_subset _, ?_, ?_⟩ <;> intro i h <;> simp [start_quiz] at h

/-- Every step of the render loop preserves the session invariant. -/
lemma sessionInv_step {s t : SessionState} (hs : SessionInv s) (h : QuizStep s t) :
    SessionInv t := by
  obtain ⟨hsum, hrange, hlt, hcur⟩ := hs
  cases h with
  | restart => exact sessionInv_start s.flashcards
  | draw i hnone hi =>
    have hi' := Finset.mem_sdiff.1 hi
    refine ⟨hsum, hrange, ?_, ?_⟩
    · intro j hj
      obtain rfl : i = j := by simpa using hj
      exact Finset.mem_range.1 hi'.1
    · intro j hj _ _
      obtain rfl : i = j := by simpa using hj
      exact hi'.2
  | setOptions i card opts hidx hget hopts hgen =>
    exact ⟨hsum, hrange, hlt, hcur⟩
  | select i ans hidx =>
    exact ⟨hsum, hrange, hlt, hcur⟩
  | submit i hidx hsub hrev hne =>
    have hi : i < s.flashcards.length := hlt i hidx
    have hget : s.flashcards[i]? = some s.flashcards[i] := List.getElem?_eq_getElem hi
    have hmem : i ∉ s.quizData.used_questions := hcur i hidx hsub hrev
    refine ⟨?_, ?_, hlt, ?_⟩
    · rw [handle_submit_counts_of_not_mem _ _ _ _ hget hmem,
        handle_submit_used_questions _ _ _ _ hget,
        Finset.card_insert_of_not_mem hmem, hsum]
    · rw [handle_submit_used_questions _ _ _ _ hget]
      exact Finset.insert_subset (Finset.mem_range.2 hi) hrange
    · intro j hj hsubf _
      rw [handle_submit_submitted _ _ _ _ hget] at hsubf
      cases hsubf
  | reveal i hidx hsub hrev =>
    have hi : i < s.flashcards.length := hlt i hidx
    have hget : s.flashcards[i]? = some s.flashcards[i] := List.getElem?_eq_getElem hi
    have hmem : i ∉ s.quizData.used_questions := hcur i hidx hsub hrev
    refine ⟨?_, ?_, hlt, ?_⟩
    · rw [handle_show_answer_counts_of_not_mem _ _ _ _ hget hmem,
        handle_show_answer_used_questions _ _ _ _ hget hmem,
        Finset.card_insert_of_not_mem hmem, hsum]
    · rw [handle_show_answer_used_questions _ _ _ _ hget hmem]
      exact Finset.insert_subset (Finset.mem_range.2 hi) hrange
    · intro j hj hsubf _
      rw [handle_show_answer_submitted _ _ _ _ hget] at hsubf
      cases hsubf
  | next i hidx hres =>
    refine ⟨hsum, hrange, ?_, ?_⟩ <;> intro j hj <;> cases hj

/-- The invariant holds in every reachable session state. -/
lemma sessionInv_reachable {flashcards : List Card} {s : SessionState}
    (h : Reachable flashcards s) : SessionInv s := by
  induction h with
  | refl => exact sessionInv_start flashcards
  | tail hab hbc ih => exact sessionInv_step ih hbc

/-! ## C1: the counting invariant -/

/-- C1: in every session state reachable from Start by render-loop events,
the correct and incorrect counters sum to the number of used indices, which
never exceeds the deck size. -/
theorem c1_counts_equal_used_card (flashcards : List Card) (s : SessionState)
    (h : Reachable flashcards s) :
    s.quizData.correct_count + s.quizData.incorrect_count
        = s.quizData.used_questions.card ∧
      s.quizData.used_questions.card ≤ s.flashcards.length := by
  obtain ⟨hsum, hrange, -, -⟩ := sessionInv_reachable h
  refine ⟨hsum, ?_⟩
  simpa using Finset.card_le_card hrange

/-- C1 witness: the invariant instantiated at the freshly started one-card
session. -/
theorem c1_counts_witness :
    Reachable deck1 (start_quiz deck1) ∧
      ((start_quiz deck1).quizData.correct_count
          + (start_quiz deck1).quizData.incorrect_count
        = (start_quiz deck1).quizData.used_questions.card ∧
      (start_quiz deck1).quizData.used_questions.card
        ≤ (start_quiz deck1).flashcards.length) :=
  ⟨Relation.ReflTransGen.refl,
    c1_counts_equal_used_card deck1 (start_quiz deck1) Relation.ReflTransGen.refl⟩

/-! ## C3: the current index versus the used set -/

/-- Along the transitions the deployed script can actually take, the used
set never gains an element: the three handlers that insert into it sit
behind the buttons that line 503's `NameError` prevents from rendering. -/
lemma used_questions_empty_of_reachableActual
    {flashcards : List Card} {s : SessionState}
    (h : ReachableActual flashcards s) :
    s.quizData.used_questions = ∅ := by
  induction h with
  | refl => rfl
  | tail hab hbc ih =>
    cases hbc with
    | restart => rfl
    | draw i h1 h2 => exact ih
    | setOptions i card opts h1 h2 h3 h4 => exact ih
    | select i ans h1 => exact ih

/-- C3: in every session state the deployed script can reach, a displayed
current index is not a member of `used_questions`.  The property holds
because `used_questions` stays empty: line 503's reference to the undefined
name `QK_SHOW_ANSWER_clicked` raises `NameError` on every question render
before the Submit, Show Answer and Next buttons exist, so the handlers
that insert into the used set never run. -/
theorem c3_current_index_never_used
    (flashcards : List Card) (s : SessionState) (i : Nat)
    (h : ReachableActual flashcards s)
    (hidx : s.currentIndex = some i) :
    i ∉ s.quizData.used_questions := by
  rw [used_questions_empty_of_reachableActual h]
  exact Finset.not_mem_empty i

/-- C3 witness: the first drawn question of the one-card session displays
index 0, which is not used. -/
theorem c3_current_index_witness :
    c3StateA.currentIndex = some 0 ∧ 0 ∉ c3StateA.quizData.used_questions :=
  ⟨rfl, c3_current_index_never_used deck1 c3StateA 0
    (Relation.ReflTransGen.single
      (QuizStepActual.draw (start_quiz deck1) 0 rfl (by decide))) rfl⟩

/-! ## C2: the ledger and completed sessions -/

/-- C2 (counterexample): not every completed session is appended exactly
once.  The completed one-card session rendered for the default user
`"Unknown"` (the `'user'` key never set) with the recording guard unset
appends nothing: `record_quiz_attempt` returns at lines 300-302 before the
append. -/
theorem c2_counterexample :
    availableIndices finishedState = ∅ ∧
    finishedState.quizData.results_recorded = false ∧
    (renderFinished "t1" "Unknown" finishedState []).2 = [] := by
  refine ⟨by decide, by decide, by decide⟩

/-- C2 (amended): when a finished session is first rendered with the
recording guard unset, at most one history row is appended — none when the
user name is empty or unset (the default `"Unknown"`), exactly one
otherwise; the guard is then set, and every subsequent render of the
finished state leaves any ledger untouched. -/
theorem c2_amended_record_at_most_once
    (timestamp user : String) (s : SessionState) (ledger : List HistoryEntry)
    (hfin : availableIndices s = ∅)
    (hrec : s.quizData.results_recorded = false) :
    ((user = "" ∨ user = "Unknown") →
      (renderFinished timestamp user s ledger).2 = ledger) ∧
    (user ≠ "" → user ≠ "Unknown" →
      (renderFinished timestamp user s ledger).2
        = ledger ++ [⟨timestamp, user, s.quizData.correct_count,
            s.quizData.incorrect_count, s.flashcards.length,
            incorrectDetailsStr s.quizData.incorrect_questions⟩]) ∧
    (renderFinished timestamp user s ledger).1.quizData.results_recorded = true ∧
    ∀ (ts2 user2 : String) (l2 : List HistoryEntry),
      renderFinished ts2 user2 (renderFinished timestamp user s ledger).1 l2
        = ((renderFinished timestamp user s ledger).1, l2) := by
  refine ⟨fun hu => ?_, fun hu1 hu2 => ?_, ?_, fun ts2 user2 l2 => ?_⟩
  · simp [renderFinished, record_quiz_attempt, hrec, hu]
  · simp [renderFinished, record_quiz_attempt, hrec, hu1, hu2]
  · simp [renderFinished, hrec]
  · simp [renderFinished, hrec]

/-- C2 witness: recording the completed one-card session for user
`"alice"` appends exactly one row. -/
theorem c2_amended_witness :
    availableIndices finishedState = ∅ ∧
    finishedState.quizData.results_recorded = false ∧
    (renderFinished "t0" "alice" finishedState []).2
      = [] ++ [⟨"t0", "alice", finishedState.quizData.correct_count,
          finishedState.quizData.incorrect_count, finishedState.flashcards.length,
          incorrectDetailsStr finishedState.quizData.incorrect_questions⟩] :=
  ⟨by decide, by decide,
    (c2_amended_record_at_most_once "t0" "alice" finishedState [] (by decide)
      (by decide)).2.1 (by decide) (by decide)⟩

/-! ## C10: completed sessions without a user name are never written -/

/-- C10: if the user name is empty or was never set (Python default
`"Unknown"`) when a finished session is first rendered, `record_quiz_attempt`
returns before appending, so no history row is written; the recording guard
is still set, and no later render of the finished state writes a row
either. -/
theorem c10_no_user_no_history_row
    (timestamp user : String) (s : SessionState) (ledger : List HistoryEntry)
    (hfin : availableIndices s = ∅)
    (hrec : s.quizData.results_recorded = false)
    (hu : user = "" ∨ user = "Unknown") :
    (renderFinished timestamp user s ledger).2 = ledger ∧
    (renderFinished timestamp user s ledger).1.quizData.results_recorded = true ∧
    ∀ (ts2 user2 : String) (l2 : List HistoryEntry),
      renderFinished ts2 user2 (renderFinished timestamp user s ledger).1 l2
        = ((renderFinished timestamp user s ledger).1, l2) := by
  rcases hu with hu | hu <;> subst hu <;>
    simp [renderFinished, record_quiz_attempt, hrec]

/-- C10 witness: finishing the one-card session with an empty user name
writes nothing yet sets the guard. -/
theorem c10_no_user_witness :
    availableIndices finishedState = ∅ ∧
    finishedState.quizData.results_recorded = false ∧
    (renderFinished "t0" "" finishedState []).2 = [] ∧
    (renderFinished "t0" "" finishedState []).1.quizData.results_recorded = true :=
  ⟨by decide, by decide,
    (c10_no_user_no_history_row "t0" "" finishedState [] (by decide) (by decide)
      (Or.inl rfl)).1,
    (c10_no_user_no_history_row "t0" "" finishedState [] (by decide) (by decide)
      (Or.inl rfl)).2.1⟩
